import Mathlib

/-!
Verification of the text-to-character-grid encoder of the `vesta` library
(`src/vesta/chars.py`), shallowly embedded in Lean.

Character codes are modelled as `Int` (Python ints), rows as `List Int`,
strings as `String`/`List Char`.  Functions that can raise `ValueError`
return `Except Err _`; the word-wrap loop of `encode_text`, which can fail
to terminate in Python when the usable width is zero, is modelled with
fuel and an `Option` wrapper (`none` = divergence).
-/

namespace Vesta

/-- The printable alphabet, exactly as in the source: codes are the indices
into this string.  The apostrophe (index 52) and double quote (index 53)
are spliced in by code point to keep the literal simple. -/
def PRINTABLE : String :=
  " ABCDEFGHIJKLMNOPQRSTUVWXYZ1234567890!@#$() - +&=;: "
    ++ String.mk [Char.ofNat 39, Char.ofNat 34] ++ "%,.  /? °"

/-- `CHARMAP = {c: i for i, c in enumerate(PRINTABLE) if i == 0 or c != " "}`:
the `(index, char)` pairs that survive the filter. -/
def charmapPairs : List (Nat × Char) :=
  PRINTABLE.toList.enum.filter (fun p => p.1 == 0 || p.2 != ' ')

/-- Dictionary lookup in `CHARMAP`.  A Python dict comprehension keeps the
last binding for a duplicated key, hence the `reverse` before `find?`. -/
def CHARMAP (c : Char) : Option Int :=
  (charmapPairs.reverse.find? (fun p => p.2 == c)).map (fun p => (p.1 : Int))

/-- The number of columns on a board. -/
def COLS : Nat := 22

/-- The number of rows on a board. -/
def ROWS : Nat := 6

/-- The numeric values of the `Color` enum
(BLANK, RED, ORANGE, YELLOW, GREEN, BLUE, VIOLET, WHITE, BLACK, FILLED). -/
def colorCodes : List Int := [0, 63, 64, 65, 66, 67, 68, 69, 70, 71]

/-- The values of `CHARMAP`. -/
def charmapCodes : List Int := charmapPairs.map (fun p => (p.1 : Int))

/-- `CHARCODES = frozenset(CHARMAP.values()).union(Color)`. -/
def CHARCODES (n : Int) : Bool := charmapCodes.contains n || colorCodes.contains n

/-- The distinct `ValueError`s raised by `chars.py`, with their payloads
(the data interpolated into the message). -/
inductive Err where
  | missingBrace : Nat → Nat → Nat → Err
  | badIntLiteral : String → Err
  | unsupportedCode : Nat → Int → Err
  | unsupportedChar : Nat → Char → Err
  | lengthExceeded : String → Nat → Nat → Err
  | unknownVAlign : String → Err
  | assertFailed : Err
  | unknownCharCode : Int → Err
  deriving Repr, DecidableEq

/-- Opening curly brace (written by code point to stay out of string
literals). -/
def lbrace : Char := Char.ofNat 123

/-- Closing curly brace. -/
def rbrace : Char := Char.ofNat 125

/-- Decimal digits folded left to right; `none` for a non-digit or for an
empty digit string. -/
def digitsToNat : List Char → Option Nat → Option Nat
  | [], acc => acc
  | c :: rest, acc =>
    if c.isDigit then digitsToNat rest (some ((acc.getD 0) * 10 + (c.toNat - 48)))
    else none

/-- Python `int(str)` restricted to the forms that fit in a one- or
two-character escape payload: optional surrounding whitespace, an optional
sign, then decimal digits (underscore separators need at least three
characters, so they cannot arise here). -/
def pyInt (l : List Char) : Option Int :=
  let t := ((l.dropWhile Char.isWhitespace).reverse.dropWhile Char.isWhitespace).reverse
  match t with
  | [] => none
  | c :: rest =>
    if c = '-' then (digitsToNat rest none).map (fun n => -(n : Int))
    else if c = '+' then (digitsToNat rest none).map (fun n => (n : Int))
    else (digitsToNat t none).map (fun n => (n : Int))

/-- The scan loop of `encode`: `skip` is Python's `skip_to`, `i` the
current index, `l` the remaining characters (`enumerate` advances one
character at a time; consumed escape characters are skipped via
`i < skip_to`).  The 1-digit escape form (`s[i+2] == "}"`) is tried before
the 2-digit form (`s[i+3] == "}"`); `int(...)` is modelled by `pyInt`. -/
def encodeFrom (skip i : Nat) (l : List Char) : Except Err (List Int) :=
  match l with
  | [] => Except.ok []
  | c :: rest =>
    if i < skip then encodeFrom skip (i + 1) rest
    else if c.toUpper = lbrace then
      if rest[1]? = some rbrace then
        match pyInt (rest.take 1) with
        | none => Except.error (Err.badIntLiteral (String.mk (rest.take 1)))
        | some code =>
          if CHARCODES code then
            (encodeFrom (i + 3) (i + 1) rest).map (fun out => code :: out)
          else Except.error (Err.unsupportedCode (i + 2) code)
      else if rest[2]? = some rbrace then
        match pyInt (rest.take 2) with
        | none => Except.error (Err.badIntLiteral (String.mk (rest.take 2)))
        | some code =>
          if CHARCODES code then
            (encodeFrom (i + 4) (i + 1) rest).map (fun out => code :: out)
          else Except.error (Err.unsupportedCode (i + 2) code)
      else Except.error (Err.missingBrace (i + 1) (i + 2) (i + 3))
    else
      match CHARMAP c.toUpper with
      | some code => (encodeFrom skip (i + 1) rest).map (fun out => code :: out)
      | none => Except.error (Err.unsupportedChar (i + 1) c.toUpper)

/-- `encode(s)`: encodes a string as a list of character codes. -/
def encode (s : String) : Except Err (List Int) :=
  encodeFrom 0 0 s.toList

/-- Decidable equality for `Except` results (not provided by core). -/
instance {ε α : Type} [DecidableEq ε] [DecidableEq α] : DecidableEq (Except ε α) :=
  fun a b =>
    match a, b with
    | Except.ok x, Except.ok y =>
      if h : x = y then isTrue (by rw [h]) else isFalse (fun hh => h (Except.ok.inj hh))
    | Except.error x, Except.error y =>
      if h : x = y then isTrue (by rw [h]) else isFalse (fun hh => h (Except.error.inj hh))
    | Except.ok _, Except.error _ => isFalse (fun hh => Except.noConfusion hh)
    | Except.error _, Except.ok _ => isFalse (fun hh => Except.noConfusion hh)

/-- Horizontal alignment (`Literal["left", "center", "right"]` in the
source's signatures). -/
inductive Align where
  | left
  | right
  | center
  deriving Repr, DecidableEq

/-- `_format_row(row, align, margin, fill)`.  The two `assert` statements of
the source are modelled as `Err.assertFailed` (Python raises
`AssertionError`).  `[fill] * k` for a negative Python `k` is the empty
list, which truncated `Nat` subtraction reproduces on every path that
passes the first assertion. -/
def format_row (row : List Int) (align : Align) (margin : Nat) (fill : Int) :
    Except Err (List Int) :=
  if (row.length : Int) > (COLS : Int) - (margin : Int) * 2 then
    Except.error Err.assertFailed
  else
    let out : List Int :=
      match align with
      | Align.left =>
        List.replicate margin fill ++ row ++ List.replicate (COLS - row.length - margin) fill
      | Align.right =>
        List.replicate (COLS - row.length - margin) fill ++ row ++ List.replicate margin fill
      | Align.center =>
        let pad := COLS - row.length
        List.replicate (pad / 2) fill ++ row ++ List.replicate (pad - pad / 2) fill
    if out.length = COLS then Except.ok out else Except.error Err.assertFailed

/-- `encode_row(s, align, fill)`. -/
def encode_row (s : String) (align : Align) (fill : Int) : Except Err (List Int) :=
  match encode s with
  | Except.error e => Except.error e
  | Except.ok row =>
    if row.length > COLS then Except.error (Err.lengthExceeded s row.length COLS)
    else format_row row align 0 fill

/-- Python slice `l[:i]` (one upper bound, possibly negative). -/
def pyTake (l : List Int) (i : Int) : List Int :=
  if i < 0 then l.take ((l.length : Int) + i).toNat else l.take i.toNat

/-- Python slice `l[i:]` (one lower bound, possibly negative). -/
def pyDrop (l : List Int) (i : Int) : List Int :=
  if i < 0 then l.drop ((l.length : Int) + i).toNat else l.drop i.toNat

/-- The `for pos in range(end, 0, -1)` loop of `find_break`: highest
position `pos` in `n, n-1, ..., 1` with `line[pos] in breaks`.  Positions
scanned are always within bounds at the call site (`pos <= max_cols <
len(line)`), so `getD`'s default is never consulted. -/
def scanBreak (breaks : List Int) (line : List Int) : Nat → Option Nat
  | 0 => none
  | p + 1 =>
    if breaks.contains (line.getD (p + 1) 0) then some (p + 1)
    else scanBreak breaks line p

/-- `find_break(line)` from `encode_text`, with `max_cols` passed
explicitly: returns `(pos, resume)`. -/
def find_break (breaks : List Int) (max_cols : Int) (line : List Int) : Int × Int :=
  let e : Int := min (line.length : Int) max_cols
  match scanBreak breaks line e.toNat with
  | some pos => ((pos : Int), (pos : Int) + 1)
  | none => (e, e)

/-- The `while len(line) > max_cols` loop of `encode_text`, for one logical
line, with explicit fuel; `none` models non-termination (the Python loop
never exits when `max_cols == 0` and the line is non-empty). -/
def wrapLine (breaks : List Int) (max_cols : Int) (align : Align) (margin : Nat)
    (fill : Int) : Nat → List Int → Option (Except Err (List (List Int)))
  | 0, _ => none
  | fuel + 1, line =>
    if (line.length : Int) > max_cols then
      let pr := find_break breaks max_cols line
      match format_row (pyTake line pr.1) align margin fill with
      | Except.error e => some (Except.error e)
      | Except.ok row =>
        match wrapLine breaks max_cols align margin fill fuel (pyDrop line pr.2) with
        | none => none
        | some (Except.error e) => some (Except.error e)
        | some (Except.ok rows) => some (Except.ok (row :: rows))
    else
      match format_row line align margin fill with
      | Except.error e => some (Except.error e)
      | Except.ok row => some (Except.ok [row])

/-- Carriage return. -/
def CR : Char := Char.ofNat 13

/-- Line feed. -/
def LF : Char := Char.ofNat 10

/-- The line-break characters recognized by Python's `str.splitlines`
(LF, CR, VT, FF, FS, GS, RS, NEL, LINE SEPARATOR, PARAGRAPH SEPARATOR). -/
def lineBreakChars : List Char :=
  [Char.ofNat 10, Char.ofNat 13, Char.ofNat 11, Char.ofNat 12, Char.ofNat 28,
   Char.ofNat 29, Char.ofNat 30, Char.ofNat 133, Char.ofNat 8232, Char.ofNat 8233]

/-- Worker for `splitlines`: `acc` holds the current (reversed) partial
line; a terminator at the very end does not open a new line, and CRLF
counts as a single terminator. -/
def splitlinesGo : List Char → List Char → List (List Char)
  | [], acc => [acc.reverse]
  | [c], acc =>
    if lineBreakChars.contains c then [acc.reverse] else [(c :: acc).reverse]
  | c :: c2 :: rest, acc =>
    if c = CR ∧ c2 = LF then
      match rest with
      | [] => [acc.reverse]
      | _ => acc.reverse :: splitlinesGo rest []
    else if lineBreakChars.contains c then
      acc.reverse :: splitlinesGo (c2 :: rest) []
    else splitlinesGo (c2 :: rest) (c :: acc)

/-- Python `s.splitlines()`. -/
def splitlines (s : List Char) : List (List Char) :=
  match s with
  | [] => []
  | _ => splitlinesGo s []

/-- The `for line in map(encode, s.splitlines())` loop of `encode_text`:
encode each logical line and wrap it, accumulating physical rows.  Fuel
`line.length + 1` is enough for every terminating execution of the Python
loop (each iteration shortens the line by at least one code unless
`max_cols = 0`, in which case Python loops forever and this returns
`none`). -/
def encodeTextLines (breaks : List Int) (max_cols : Int) (align : Align)
    (margin : Nat) (fill : Int) :
    List (List Char) → Option (Except Err (List (List Int)))
  | [] => some (Except.ok [])
  | l :: ls =>
    match encodeFrom 0 0 l with
    | Except.error e => some (Except.error e)
    | Except.ok line =>
      match wrapLine breaks max_cols align margin fill (line.length + 1) line with
      | none => none
      | some (Except.error e) => some (Except.error e)
      | some (Except.ok rows1) =>
        match encodeTextLines breaks max_cols align margin fill ls with
        | none => none
        | some (Except.error e) => some (Except.error e)
        | some (Except.ok rows2) => some (Except.ok (rows1 ++ rows2))

/-- The padding/truncation tail of `encode_text` (the block after the
line loop): pad with blank rows by vertical alignment when under a
positive bound, truncate above it, validate the `valign` token, and
return rows as-is when the bound is unlimited (`max_rows < 1`). -/
def encode_text_post (valign : Option String) (max_rows : Int) (fill : Int)
    (rows : List (List Int)) : Except Err (List (List Int)) :=
  if max_rows < 1 then Except.ok rows
  else
    let nrows := rows.length
    let empty : List Int := List.replicate COLS fill
    match valign with
    | some v =>
      if (nrows : Int) < max_rows then
        let padN : Nat := (max_rows - (nrows : Int)).toNat
        if v = "top" then Except.ok (rows ++ List.replicate padN empty)
        else if v = "bottom" then Except.ok (List.replicate padN empty ++ rows)
        else if v = "middle" then
          Except.ok (List.replicate (padN / 2) empty ++ rows ++
            List.replicate (padN - padN / 2) empty)
        else Except.error (Err.unknownVAlign v)
      else if (nrows : Int) > max_rows then Except.ok (rows.take max_rows.toNat)
      else Except.ok rows
    | none =>
      if (nrows : Int) > max_rows then Except.ok (rows.take max_rows.toNat)
      else Except.ok rows

/-- `encode_text(s, align, valign, max_rows, margin, fill, breaks)`.
`valign` is an `Option String` because the source accepts (and validates)
arbitrary tokens at runtime.  The result is `none` exactly when the
Python word-wrap loop diverges. -/
def encode_text (s : String) (align : Align) (valign : Option String)
    (max_rows : Int) (margin : Nat) (fill : Int) (breaks : List Int) :
    Option (Except Err (List (List Int))) :=
  match encodeTextLines breaks ((COLS : Int) - (margin : Int) * 2) align margin fill
      (splitlines s.toList) with
  | none => none
  | some (Except.error e) => some (Except.error e)
  | some (Except.ok rows) => some (encode_text_post valign max_rows fill rows)

/-- `encode_text` with all keyword defaults of the source
(`align="left"`, `valign="top"`, `max_rows=ROWS`, `margin=0`, `fill=0`,
`breaks={0}`). -/
def encode_text_default (s : String) : Option (Except Err (List (List Int))) :=
  encode_text s Align.left (some "top") (ROWS : Int) 0 0 [0]

/-- The `(value, ansi)` pairs of the `Color` enum. -/
def colorAnsiTable : List (Int × String) :=
  [(0, "\x1b[0m"), (63, "\x1b[31m"), (64, "\x1b[33m"), (65, "\x1b[93m"),
   (66, "\x1b[32m"), (67, "\x1b[94m"), (68, "\x1b[95m"), (69, "\x1b[97m"),
   (70, "\x1b[0m"), (71, "\x1b[97m")]

/-- The default block glyph of `pprint`. -/
def blockDefault : String := "◼︎"

/-- The inner `symbol` function of `pprint`: the glyph rendered for one
character code (`colors` is `stream.isatty()`). -/
def symbol (colors : Bool) (block : String) (code : Int) : Except Err String :=
  if 0 ≤ code ∧ code < (PRINTABLE.length : Int) then
    Except.ok (String.mk [PRINTABLE.toList.getD code.toNat (Char.ofNat 32)])
  else
    match colorAnsiTable.find? (fun p => p.1 == code) with
    | some p => Except.ok (if colors then p.2 ++ block ++ "\x1b[0m" else block)
    | none => Except.error (Err.unknownCharCode code)

/-- The input string of the inline escape for code `N`: an opening brace,
the decimal digits of `N`, a closing brace. -/
def braceStr (N : Nat) : String :=
  String.mk [lbrace] ++ toString N ++ String.mk [rbrace]

/-- Round trip for one printable character `c`: `encode` maps the
one-character string to a single code, and `pprint`'s glyph mapping
(`symbol`, without colors) renders that code back as `c`. -/
def encodeRenderRoundTrip (c : Char) : Bool :=
  match CHARMAP c with
  | some n =>
    (match encode (String.mk [c]) with
     | Except.ok out => out == [n]
     | Except.error _ => false)
    &&
    (match symbol false blockDefault n with
     | Except.ok g => g == String.mk [c]
     | Except.error _ => false)
  | none => false

/-!  Helper lemmas shared by several claims. -/

/-- If the backward scan over positions `n, ..., 1` returns `p`, then `p`
is in `[1, n]`, it carries a break code, and it is the highest such
position. -/
theorem scanBreak_some_spec (breaks line : List Int) :
    ∀ n p, scanBreak breaks line n = some p →
      1 ≤ p ∧ p ≤ n ∧ breaks.contains (line.getD p 0) = true ∧
      ∀ q, p < q → q ≤ n → breaks.contains (line.getD q 0) = false := by
  intro n
  induction n with
  | zero => intro p h; simp [scanBreak] at h
  | succ m ih =>
    intro p h
    by_cases hb : breaks.contains (line.getD (m + 1) 0) = true
    · simp only [scanBreak, hb, if_pos] at h
      cases h
      exact ⟨by omega, by omega, hb, fun q hq1 hq2 => by exfalso; omega⟩
    · have hb' : breaks.contains (line.getD (m + 1) 0) = false := by
        simpa using hb
      simp only [scanBreak, hb', Bool.false_eq_true, if_neg, ite_false] at h
      obtain ⟨h1, h2, h3, h4⟩ := ih p h
      refine ⟨h1, by omega, h3, fun q hq1 hq2 => ?_⟩
      rcases Nat.lt_or_ge q (m + 1) with hlt | hge
      · exact h4 q hq1 (by omega)
      · have hq : q = m + 1 := by omega
        rw [hq]; exact hb'

/-- If the backward scan finds nothing, no scanned position carries a
break code. -/
theorem scanBreak_none_spec (breaks line : List Int) :
    ∀ n, scanBreak breaks line n = none →
      ∀ q, 1 ≤ q → q ≤ n → breaks.contains (line.getD q 0) = false := by
  intro n
  induction n with
  | zero => intro _ q hq1 hq2; exfalso; omega
  | succ m ih =>
    intro h q hq1 hq2
    by_cases hb : breaks.contains (line.getD (m + 1) 0) = true
    · simp only [scanBreak, hb, if_pos] at h
      exact Option.noConfusion h
    · have hb' : breaks.contains (line.getD (m + 1) 0) = false := by
        simpa using hb
      simp only [scanBreak, hb', Bool.false_eq_true, if_neg, ite_false] at h
      rcases Nat.lt_or_ge q (m + 1) with hlt | hge
      · exact ih h q hq1 (by omega)
      · have hq : q = m + 1 := by omega
        rw [hq]; exact hb'

/-- Behaviour of `find_break` on an overlong line (`len(line) > max_cols`,
`max_cols > 0`): either it reports the highest break position `p` in
`[1, max_cols]`, with resume position `p + 1`, or no scanned position holds
a break code and it reports a hard cut `(max_cols, max_cols)`. -/
theorem find_break_spec (breaks : List Int) (mc : Int) (line : List Int)
    (hlen : (line.length : Int) > mc) (hmc : 0 < mc) :
    (∃ p : Nat, find_break breaks mc line = ((p : Int), (p : Int) + 1) ∧
      1 ≤ p ∧ (p : Int) ≤ mc ∧ breaks.contains (line.getD p 0) = true ∧
      ∀ q : Nat, p < q → (q : Int) ≤ mc → breaks.contains (line.getD q 0) = false) ∨
    (find_break breaks mc line = (mc, mc) ∧
      ∀ q : Nat, 1 ≤ q → (q : Int) ≤ mc → breaks.contains (line.getD q 0) = false) := by
  have hmin : min (line.length : Int) mc = mc := by omega
  have htn : (mc.toNat : Int) = mc := Int.toNat_of_nonneg (by omega)
  cases hs : scanBreak breaks line mc.toNat with
  | some p =>
    left
    obtain ⟨h1, h2, h3, h4⟩ := scanBreak_some_spec breaks line mc.toNat p hs
    refine ⟨p, ?_, h1, by omega, h3, fun q hq1 hq2 => h4 q hq1 (by omega)⟩
    simp [find_break, hmin, hs]
  | none =>
    right
    refine ⟨?_, fun q hq1 hq2 => scanBreak_none_spec breaks line mc.toNat hs q hq1 (by omega)⟩
    simp [find_break, hmin, hs]

/-- The resume position returned by the break search is at least 1
whenever the wrap loop runs with a positive usable width. -/
theorem find_break_resume_pos (breaks : List Int) (mc : Int) (line : List Int)
    (hlen : (line.length : Int) > mc) (hmc : 1 ≤ mc) :
    1 ≤ (find_break breaks mc line).2 := by
  rcases find_break_spec breaks mc line hlen (by omega) with
    ⟨p, hp, h1, _, _, _⟩ | ⟨hp, _⟩
  · rw [hp]
    show (1 : Int) ≤ (p : Int) + 1
    omega
  · rw [hp]
    exact hmc

/-- Length of a Python tail slice with a non-negative lower bound. -/
theorem pyDrop_length_of_nonneg (l : List Int) (i : Int) (h : 0 ≤ i) :
    (pyDrop l i).length = l.length - i.toNat := by
  unfold pyDrop
  rw [if_neg (by omega)]
  simp

/-- With a positive usable width, fuel `line.length + 1` (or more) is
enough for the wrap loop: it always produces a result. -/
theorem wrapLine_isSome (breaks : List Int) (mc : Int) (align : Align) (margin : Nat)
    (fill : Int) (hmc : 1 ≤ mc) :
    ∀ fuel line, line.length < fuel →
      (wrapLine breaks mc align margin fill fuel line).isSome = true := by
  intro fuel
  induction fuel with
  | zero => intro line h; exfalso; omega
  | succ f ih =>
    intro line hlen
    by_cases hlong : (line.length : Int) > mc
    · have hres : 1 ≤ (find_break breaks mc line).2 :=
        find_break_resume_pos breaks mc line hlong hmc
      have hlinepos : 1 ≤ line.length := by omega
      have hdrop : (pyDrop line (find_break breaks mc line).2).length < line.length := by
        rw [pyDrop_length_of_nonneg _ _ (by omega)]
        omega
      have ih' := ih (pyDrop line (find_break breaks mc line).2) (by omega)
      simp only [wrapLine, if_pos hlong]
      cases hfr : format_row (pyTake line (find_break breaks mc line).1) align margin fill with
      | error e => simp
      | ok row =>
        cases hrec : wrapLine breaks mc align margin fill f
            (pyDrop line (find_break breaks mc line).2) with
        | none => rw [hrec] at ih'; simp at ih'
        | some r => cases r <;> simp
    · simp only [wrapLine, if_neg hlong]
      cases format_row line align margin fill <;> simp

/-- With a positive usable width, the whole line loop of `encode_text`
produces a result. -/
theorem encodeTextLines_isSome (breaks : List Int) (mc : Int) (align : Align)
    (margin : Nat) (fill : Int) (hmc : 1 ≤ mc) :
    ∀ ls, (encodeTextLines breaks mc align margin fill ls).isSome = true := by
  intro ls
  induction ls with
  | nil => simp [encodeTextLines]
  | cons l ls ih =>
    simp only [encodeTextLines]
    cases henc : encodeFrom 0 0 l with
    | error e => simp
    | ok line =>
      have hw := wrapLine_isSome breaks mc align margin fill hmc (line.length + 1) line
        (by omega)
      cases hwl : wrapLine breaks mc align margin fill (line.length + 1) line with
      | none => rw [hwl] at hw; simp at hw
      | some r =>
        cases r with
        | error e => simp [hwl]
        | ok rows1 =>
          cases hrec : encodeTextLines breaks mc align margin fill ls with
          | none => rw [hrec] at ih; simp at ih
          | some r2 => cases r2 <;> simp [hwl, hrec]

/-- `_format_row` with zero margin and content that fits: both assertions
pass and the row is laid out according to the alignment. -/
theorem format_row_zero_spec (row : List Int) (align : Align) (fill : Int)
    (h : row.length ≤ COLS) :
    format_row row align 0 fill = Except.ok
      (match align with
       | Align.left => row ++ List.replicate (COLS - row.length) fill
       | Align.right => List.replicate (COLS - row.length) fill ++ row
       | Align.center =>
         List.replicate ((COLS - row.length) / 2) fill ++ row ++
           List.replicate ((COLS - row.length) - (COLS - row.length) / 2) fill) := by
  have hc : COLS = 22 := rfl
  have h1 : ¬ ((row.length : Int) > (COLS : Int) - ((0 : Nat) : Int) * 2) := by
    rw [hc] at h
    push_cast
    omega
  cases align with
  | left =>
    have h2 : row.length + (COLS - row.length) = COLS := by omega
    simp [format_row, h1, h2]
    omega
  | right =>
    have h2 : COLS - row.length + row.length = COLS := by omega
    simp [format_row, h1, h2]
    omega
  | center =>
    have h2 : (COLS - row.length) / 2 +
        (row.length + (COLS - row.length - (COLS - row.length) / 2)) = COLS := by omega
    simp [format_row, h1, h2]
    omega

/-- Unfolding of `encode_row` when `encode` succeeds. -/
theorem encode_row_unfold (s : String) (row : List Int) (align : Align) (fill : Int)
    (henc : encode s = Except.ok row) :
    encode_row s align fill =
      if row.length > COLS then Except.error (Err.lengthExceeded s row.length COLS)
      else format_row row align 0 fill := by
  unfold encode_row
  rw [henc]

/-!  The claims. -/

/-- Claim C1 (evaluation at the failing input): with the default
arguments, `encode_text("a\n" * 7)` does not raise; it silently truncates
the 7 encoded rows to the first `max_rows = 6` (the repository's own test
`test_maximum_rows` instead expects a `ValueError` citing 7 lines). -/
theorem claim_C1 :
    encode_text_default "a\na\na\na\na\na\na\n" =
      some (Except.ok (List.replicate 6 ((1 : Int) :: List.replicate 21 0))) := by
  decide

/-- Claim C4: when the encoding of `s` fits in a row (length `L ≤ COLS`),
`encode_row` succeeds and lays the content out by alignment: `left` puts
the `L` content codes first and `COLS - L` fill codes after; `right` the
reverse; `center` puts `floor((COLS-L)/2)` fill codes before and
`ceil((COLS-L)/2)` after, biasing odd padding to the right. -/
theorem claim_C4 (s : String) (row : List Int) (align : Align) (fill : Int)
    (henc : encode s = Except.ok row) (hlen : row.length ≤ COLS) :
    encode_row s align fill = Except.ok
      (match align with
       | Align.left => row ++ List.replicate (COLS - row.length) fill
       | Align.right => List.replicate (COLS - row.length) fill ++ row
       | Align.center =>
         List.replicate ((COLS - row.length) / 2) fill ++ row ++
           List.replicate ((COLS - row.length) - (COLS - row.length) / 2) fill) := by
  rw [encode_row_unfold s row align fill henc, if_neg (by omega)]
  exact format_row_zero_spec row align fill hlen

/-- Witness for C4: `encode_row("abc", align="center")` places the three
content codes at indices 9-11 of 22. -/
theorem claim_C4_witness :
    encode_row "abc" Align.center 0 =
      Except.ok (List.replicate 9 (0 : Int) ++ [1, 2, 3] ++ List.replicate 10 0) := by
  exact claim_C4 "abc" [1, 2, 3] Align.center 0 (by decide) (by decide)

/-- Claim C7: `encode_row` fails with `LengthExceeded`, carrying the
actual encoded length and the maximum `COLS`, exactly when the encoding of
its input has more than `COLS` entries; otherwise it returns a full row of
`COLS` codes. -/
theorem claim_C7 (s : String) (row : List Int) (align : Align) (fill : Int)
    (henc : encode s = Except.ok row) :
    (COLS < row.length →
      encode_row s align fill = Except.error (Err.lengthExceeded s row.length COLS)) ∧
    (row.length ≤ COLS →
      ∃ out, encode_row s align fill = Except.ok out ∧ out.length = COLS) := by
  constructor
  · intro h
    rw [encode_row_unfold s row align fill henc, if_pos (by omega)]
  · intro h
    have hf := format_row_zero_spec row align fill h
    rw [encode_row_unfold s row align fill henc, if_neg (by omega)]
    refine ⟨_, hf, ?_⟩
    cases align with
    | left => simp; omega
    | right => simp; omega
    | center => simp; omega

/-- Witness for C7: `"a"*30` encodes to 30 codes and is rejected citing 30
and the maximum 22; `"a"*21 + "{10}"` encodes to exactly 22 codes and
succeeds; `"a"*22 + "{10}"` is rejected citing 23. -/
theorem claim_C7_witness :
    encode_row "aaaaaaaaaaaaaaaaaaaaaaaaaaaaaa" Align.left 0 =
      Except.error (Err.lengthExceeded "aaaaaaaaaaaaaaaaaaaaaaaaaaaaaa" 30 22) ∧
    encode_row ("aaaaaaaaaaaaaaaaaaaaa" ++ braceStr 10) Align.left 0 =
      Except.ok (List.replicate 21 (1 : Int) ++ [10]) ∧
    encode_row ("aaaaaaaaaaaaaaaaaaaaaa" ++ braceStr 10) Align.left 0 =
      Except.error (Err.lengthExceeded ("aaaaaaaaaaaaaaaaaaaaaa" ++ braceStr 10) 23 22) := by
  refine ⟨?_, by decide, by decide⟩
  exact (claim_C7 "aaaaaaaaaaaaaaaaaaaaaaaaaaaaaa" (List.replicate 30 1) Align.left 0
    (by decide)).1 (by decide)

/-- Counterexample to claim C3: the valid code set is not `0..70`.
Code 71 (`Color.FILLED`) is accepted by `encode` although it is greater
than 70, and code 43 (a blank slot filtered out of the printable map) is
rejected although it lies in `0..70`. -/
theorem claim_C3_counterexample :
    (encode (braceStr 71) = Except.ok [71] ∧ ¬ ((71 : Int) ≤ 70)) ∧
    ((0 : Int) ≤ 43 ∧ (43 : Int) ≤ 70 ∧
      encode (braceStr 43) = Except.error (Err.unsupportedCode 2 43)) := by
  exact ⟨⟨by decide, by decide⟩, by decide, by decide, by decide⟩

/-- Claim C3 (amended): for every integer `N` expressible as a 1- or
2-digit escape, `encode("{N}")` succeeds (yielding `[N]`) if and only if
`N` is in `CHARCODES`, which is the printable-map codes together with the
`Color` values: 0-42, 44, 46-50, 52-56, 59, 60 and 62-71 (not `0..70`);
otherwise it fails with an `UnsupportedCode` error naming `N`. -/
theorem claim_C3 (N : Nat) (h : N < 100) :
    (encode (braceStr N) = Except.ok [(N : Int)] ↔ CHARCODES (N : Int) = true) ∧
    (CHARCODES (N : Int) = true ↔
      (N ≤ 42 ∨ N = 44 ∨ (46 ≤ N ∧ N ≤ 50) ∨ (52 ≤ N ∧ N ≤ 56) ∨
        N = 59 ∨ N = 60 ∨ (62 ≤ N ∧ N ≤ 71))) ∧
    (CHARCODES (N : Int) = false →
      encode (braceStr N) = Except.error (Err.unsupportedCode 2 (N : Int))) := by
  revert N
  decide

/-- Witness for C3 (amended): code 67 (blue) is valid and `{67}` encodes
to `[67]`. -/
theorem claim_C3_witness :
    encode (braceStr 67) = Except.ok [(67 : Int)] := by
  exact (claim_C3 67 (by decide)).1.mpr (by decide)

/-- Every valid character code written as a 1- or 2-digit escape encodes
to itself. -/
theorem encode_braceStr_valid :
    ∀ N : Nat, N < 100 → CHARCODES (N : Int) = true →
      encode (braceStr N) = Except.ok [(N : Int)] := by
  decide

/-- Claim C6: escape parsing tries the 1-digit form (closing brace two
characters ahead) before the 2-digit form (three characters ahead):
`{9}` yields `[9]`, `{10}` yields `[10]`, and on the ambiguous `{5}}`,
where both closing-brace positions match, the 1-digit form wins (the
scan then fails on the now-dangling fourth character, an unsupported
`}`, rather than inside `int("5}")`).  For every valid code `N`,
`encode("{N}")` yields `[N]`. -/
theorem claim_C6 (N : Nat) (h : N < 100) (hc : CHARCODES (N : Int) = true) :
    encode (braceStr N) = Except.ok [(N : Int)] ∧
    encode (braceStr 9) = Except.ok [9] ∧
    encode (braceStr 10) = Except.ok [10] ∧
    encode (String.mk [lbrace, '5', rbrace, rbrace]) =
      Except.error (Err.unsupportedChar 4 rbrace) := by
  exact ⟨encode_braceStr_valid N h hc, by decide, by decide, by decide⟩

/-- Witness for C6 at `N = 70` (black). -/
theorem claim_C6_witness :
    encode (braceStr 70) = Except.ok [(70 : Int)] := by
  exact (claim_C6 70 (by decide) (by decide)).1

/-- Claim C9: every character `c` of the printable alphabet encodes to a
single-element sequence holding its fixed code, and rendering that code
through the debug renderer's glyph mapping (`symbol`) recovers `c`. -/
theorem claim_C9 : ∀ c ∈ PRINTABLE.toList, encodeRenderRoundTrip c = true := by
  decide

/-- Witness for C9 at `c = 'A'`. -/
theorem claim_C9_witness : encodeRenderRoundTrip 'A' = true := by
  exact claim_C9 'A' (by decide)

/-- A Python head slice with a natural bound is `List.take`. -/
theorem pyTake_natCast (l : List Int) (n : Nat) : pyTake l (n : Int) = l.take n := by
  unfold pyTake
  rw [if_neg (by omega)]
  norm_num

/-- A Python tail slice with a natural bound is `List.drop`. -/
theorem pyDrop_natCast (l : List Int) (n : Nat) : pyDrop l (n : Int) = l.drop n := by
  unfold pyDrop
  rw [if_neg (by omega)]
  norm_num

/-- Claim C2: when a logical line exceeds the usable width `max_cols`,
the break search scans backward from the usable-width limit.  If a break
code exists at a scanned position, the highest such position `p` is
chosen: codes `[0, p)` form the emitted physical row, and encoding
resumes at `p + 1`, discarding the break code itself.  Otherwise the line
is cut exactly at the usable-width limit and nothing is discarded (the
emitted prefix and the resumed suffix recompose the line).  Consequently
the default encoding of ten space-separated copies of "word" produces
exactly three content rows of packed WORD groups (plus top padding). -/
theorem claim_C2 (breaks : List Int) (mc : Int) (line : List Int)
    (hlen : (line.length : Int) > mc) (hmc : 0 < mc) :
    ((∃ p : Nat, find_break breaks mc line = ((p : Int), (p : Int) + 1) ∧
        1 ≤ p ∧ (p : Int) ≤ mc ∧ breaks.contains (line.getD p 0) = true ∧
        (∀ q : Nat, p < q → (q : Int) ≤ mc → breaks.contains (line.getD q 0) = false) ∧
        pyTake line ((p : Int)) = line.take p ∧
        pyDrop line ((p : Int) + 1) = line.drop (p + 1)) ∨
      (find_break breaks mc line = (mc, mc) ∧
        (∀ q : Nat, 1 ≤ q → (q : Int) ≤ mc → breaks.contains (line.getD q 0) = false) ∧
        pyTake line mc ++ pyDrop line mc = line)) ∧
    encode_text "word word word word word word word word word word" Align.left
        (some "top") 6 0 0 [0] =
      some (Except.ok
        [[23, 15, 18, 4, 0, 23, 15, 18, 4, 0, 23, 15, 18, 4, 0, 23, 15, 18, 4, 0, 0, 0],
         [23, 15, 18, 4, 0, 23, 15, 18, 4, 0, 23, 15, 18, 4, 0, 23, 15, 18, 4, 0, 0, 0],
         [23, 15, 18, 4, 0, 23, 15, 18, 4, 0, 0, 0, 0, 0, 0, 0, 0, 0, 0, 0, 0, 0],
         List.replicate 22 0, List.replicate 22 0, List.replicate 22 0]) := by
  constructor
  · rcases find_break_spec breaks mc line hlen hmc with
      ⟨p, hfb, h1, h2, h3, h4⟩ | ⟨hfb, hnone⟩
    · left
      refine ⟨p, hfb, h1, h2, h3, h4, pyTake_natCast line p, ?_⟩
      have hcast : ((p : Int) + 1) = ((p + 1 : Nat) : Int) := by push_cast; ring
      rw [hcast, pyDrop_natCast]
    · right
      refine ⟨hfb, hnone, ?_⟩
      have hmc' : ¬ (mc < 0) := by omega
      unfold pyTake pyDrop
      rw [if_neg hmc', if_neg hmc']
      exact List.take_append_drop _ _
  · decide

/-- Witness for C2: the wrap of the ten-word line breaks at the space
at position 19 (the highest break position within the 22-column width). -/
theorem claim_C2_witness :
    (∃ p : Nat, find_break [0] 22
        [23, 15, 18, 4, 0, 23, 15, 18, 4, 0, 23, 15, 18, 4, 0, 23, 15, 18, 4, 0,
         23, 15, 18, 4, 0, 23, 15, 18, 4, 0, 23, 15, 18, 4, 0, 23, 15, 18, 4, 0,
         23, 15, 18, 4, 0, 23, 15, 18, 4] = ((p : Int), (p : Int) + 1) ∧
      1 ≤ p ∧ (p : Int) ≤ 22) := by
  obtain ⟨h, -⟩ := claim_C2 [0] 22
    [23, 15, 18, 4, 0, 23, 15, 18, 4, 0, 23, 15, 18, 4, 0, 23, 15, 18, 4, 0,
     23, 15, 18, 4, 0, 23, 15, 18, 4, 0, 23, 15, 18, 4, 0, 23, 15, 18, 4, 0,
     23, 15, 18, 4, 0, 23, 15, 18, 4] (by decide) (by decide)
  rcases h with ⟨p, hfb, h1, h2, -⟩ | ⟨hfb, -⟩
  · exact ⟨p, hfb, h1, h2⟩
  · exact absurd hfb (by decide)

/-- Unfolding of `encode_text` when the line loop produced rows. -/
theorem encode_text_of_lines_ok (s : String) (align : Align) (valign : Option String)
    (max_rows : Int) (margin : Nat) (fill : Int) (breaks : List Int)
    (rows : List (List Int))
    (hel : encodeTextLines breaks ((COLS : Int) - (margin : Int) * 2) align margin fill
      (splitlines s.toList) = some (Except.ok rows)) :
    encode_text s align valign max_rows margin fill breaks =
      some (encode_text_post valign max_rows fill rows) := by
  unfold encode_text
  rw [hel]

/-- Unfolding of `encode_text` when a line fails to encode or format. -/
theorem encode_text_of_lines_err (s : String) (align : Align) (valign : Option String)
    (max_rows : Int) (margin : Nat) (fill : Int) (breaks : List Int) (e : Err)
    (hel : encodeTextLines breaks ((COLS : Int) - (margin : Int) * 2) align margin fill
      (splitlines s.toList) = some (Except.error e)) :
    encode_text s align valign max_rows margin fill breaks = some (Except.error e) := by
  unfold encode_text
  rw [hel]

/-- Claim C5: with a bounded `max_rows ≥ 1` and fewer content rows than
the bound, `encode_text` pads the grid with fully-blank fill rows by
vertical alignment: "top" appends the pad rows after the content,
"bottom" prepends them, "middle" puts `floor(pad/2)` before and
`ceil(pad/2)` after, and `None` adds no rows at all, returning exactly
the content rows. -/
theorem claim_C5 (s : String) (align : Align) (max_rows : Int) (margin : Nat)
    (fill : Int) (breaks : List Int) (rows : List (List Int))
    (hmr : 1 ≤ max_rows)
    (hrows : encodeTextLines breaks ((COLS : Int) - (margin : Int) * 2) align margin fill
      (splitlines s.toList) = some (Except.ok rows))
    (hlt : (rows.length : Int) < max_rows) :
    encode_text s align (some "top") max_rows margin fill breaks =
      some (Except.ok (rows ++
        List.replicate (max_rows - (rows.length : Int)).toNat (List.replicate COLS fill))) ∧
    encode_text s align (some "bottom") max_rows margin fill breaks =
      some (Except.ok (List.replicate (max_rows - (rows.length : Int)).toNat
        (List.replicate COLS fill) ++ rows)) ∧
    encode_text s align (some "middle") max_rows margin fill breaks =
      some (Except.ok (List.replicate ((max_rows - (rows.length : Int)).toNat / 2)
          (List.replicate COLS fill) ++ rows ++
        List.replicate ((max_rows - (rows.length : Int)).toNat -
          (max_rows - (rows.length : Int)).toNat / 2) (List.replicate COLS fill))) ∧
    encode_text s align none max_rows margin fill breaks = some (Except.ok rows) := by
  have hmr' : ¬ (max_rows < 1) := by omega
  have hgt : ¬ ((rows.length : Int) > max_rows) := by omega
  refine ⟨?_, ?_, ?_, ?_⟩ <;>
    rw [encode_text_of_lines_ok s align _ max_rows margin fill breaks rows hrows] <;>
    simp [encode_text_post, hmr', hlt, hgt]

/-- Witness for C5: `encode_text("a\nb", valign="middle")` centers the two
content rows at indices 2-3 of 6, and `valign=None` returns exactly the
two content rows. -/
theorem claim_C5_witness :
    encode_text "a\nb" Align.left (some "middle") 6 0 0 [0] =
      some (Except.ok
        [List.replicate 22 (0 : Int), List.replicate 22 0,
         (1 : Int) :: List.replicate 21 0, (2 : Int) :: List.replicate 21 0,
         List.replicate 22 0, List.replicate 22 0]) ∧
    encode_text "a\nb" Align.left none 6 0 0 [0] =
      some (Except.ok
        [(1 : Int) :: List.replicate 21 0, (2 : Int) :: List.replicate 21 0]) := by
  have h := claim_C5 "a\nb" Align.left 6 0 0 [0]
    [(1 : Int) :: List.replicate 21 0, (2 : Int) :: List.replicate 21 0]
    (by decide) (by decide) (by decide)
  exact ⟨h.2.2.1, h.2.2.2⟩

/-- Counterexample to claim C8: an unknown vertical-alignment token does
not make every call fail.  When the content already occupies `max_rows`
rows the token is never examined: six input lines with `valign="bogus"`
succeed. -/
theorem claim_C8_counterexample :
    encode_text "a\nb\nc\nd\ne\nf" Align.left (some "bogus") 6 0 0 [0] =
      some (Except.ok
        [(1 : Int) :: List.replicate 21 0, (2 : Int) :: List.replicate 21 0,
         (3 : Int) :: List.replicate 21 0, (4 : Int) :: List.replicate 21 0,
         (5 : Int) :: List.replicate 21 0, (6 : Int) :: List.replicate 21 0]) := by
  decide

/-- Claim C8 (amended): a vertical-alignment token other than "top",
"middle" or "bottom" causes an `UnknownVerticalAlignment` error naming
the token exactly when the padding branch runs, i.e. when `max_rows ≥ 1`
and the content occupies fewer than `max_rows` rows.  Otherwise the bad
token is ignored: the rows are returned unchanged, or truncated to the
bound when they exceed it. -/
theorem claim_C8 (s : String) (align : Align) (v : String) (max_rows : Int)
    (margin : Nat) (fill : Int) (breaks : List Int) (rows : List (List Int))
    (hv1 : v ≠ "top") (hv2 : v ≠ "middle") (hv3 : v ≠ "bottom")
    (hrows : encodeTextLines breaks ((COLS : Int) - (margin : Int) * 2) align margin fill
      (splitlines s.toList) = some (Except.ok rows)) :
    (1 ≤ max_rows → (rows.length : Int) < max_rows →
      encode_text s align (some v) max_rows margin fill breaks =
        some (Except.error (Err.unknownVAlign v))) ∧
    (1 ≤ max_rows → max_rows ≤ (rows.length : Int) →
      encode_text s align (some v) max_rows margin fill breaks =
        some (Except.ok (rows.take max_rows.toNat))) ∧
    (max_rows < 1 →
      encode_text s align (some v) max_rows margin fill breaks =
        some (Except.ok rows)) := by
  refine ⟨?_, ?_, ?_⟩
  · intro h1 h2
    rw [encode_text_of_lines_ok s align (some v) max_rows margin fill breaks rows hrows]
    have hmr' : ¬ (max_rows < 1) := by omega
    simp [encode_text_post, hmr', h2, hv1, hv2, hv3]
  · intro h1 h2
    rw [encode_text_of_lines_ok s align (some v) max_rows margin fill breaks rows hrows]
    have hmr' : ¬ (max_rows < 1) := by omega
    have hlt' : ¬ ((rows.length : Int) < max_rows) := by omega
    rcases lt_or_eq_of_le h2 with hgt | heq
    · simp [encode_text_post, hmr', hlt', hgt]
    · have hgt' : ¬ ((rows.length : Int) > max_rows) := by omega
      have htake : rows.take max_rows.toNat = rows := by
        apply List.take_of_length_le
        omega
      simp [encode_text_post, hmr', hlt', hgt', htake]
  · intro h1
    rw [encode_text_of_lines_ok s align (some v) max_rows margin fill breaks rows hrows]
    simp [encode_text_post, h1]

/-- Witness for C8: a single content row with `valign="bogus"` hits the
padding branch and fails naming the token. -/
theorem claim_C8_witness :
    encode_text "a" Align.left (some "bogus") 6 0 0 [0] =
      some (Except.error (Err.unknownVAlign "bogus")) := by
  exact (claim_C8 "a" Align.left "bogus" 6 0 0 [0] [(1 : Int) :: List.replicate 21 0]
    (by decide) (by decide) (by decide) (by decide)).1 (by decide) (by decide)

/-- Claim C10: whenever the usable width `COLS - 2*margin` is at least 1,
`encode_text` terminates and returns a result (the fuel-indexed wrap loop
cannot exhaust): every iteration of the wrap loop consumes at least one
code, because the resume position returned by the break search is always
at least 1.  The spec never states this precondition on `margin`. -/
theorem claim_C10 (s : String) (align : Align) (valign : Option String)
    (max_rows : Int) (margin : Nat) (fill : Int) (breaks : List Int)
    (h : 1 ≤ (COLS : Int) - (margin : Int) * 2) :
    (encode_text s align valign max_rows margin fill breaks).isSome = true ∧
    ∀ line : List Int, (line.length : Int) > (COLS : Int) - (margin : Int) * 2 →
      1 ≤ (find_break breaks ((COLS : Int) - (margin : Int) * 2) line).2 := by
  constructor
  · have he := encodeTextLines_isSome breaks ((COLS : Int) - (margin : Int) * 2) align
      margin fill h (splitlines s.toList)
    cases hel : encodeTextLines breaks ((COLS : Int) - (margin : Int) * 2) align margin fill
        (splitlines s.toList) with
    | none => rw [hel] at he; simp at he
    | some r =>
      cases r with
      | error e =>
        rw [encode_text_of_lines_err s align valign max_rows margin fill breaks e hel]
        rfl
      | ok rows =>
        rw [encode_text_of_lines_ok s align valign max_rows margin fill breaks rows hel]
        rfl
  · intro line hl
    exact find_break_resume_pos breaks _ line hl h

/-- Witness for C10 at margin 0. -/
theorem claim_C10_witness :
    (encode_text "a" Align.left (some "top") 6 0 0 [0]).isSome = true := by
  exact (claim_C10 "a" Align.left (some "top") 6 0 0 [0] (by decide)).1

end Vesta
